import Mathlib

/-!
Shallow embedding of the Test-Comp benchmark harness (`run.py`) and proofs
about its task resolution, bounded execution, and result-table components.

Conventions of the embedding:
- Python `set` becomes `Finset String`; glob expansion is an oracle
  `String → Finset String` mapping the exact pattern string handed to
  `glob.glob` to its matches.
- The persisted CSV file is modelled as its list of records
  (`List (List α)`): the csv writer emits one record per `writerow` call.
- Exception-raising methods return the unchanged state paired with an
  `Option` exception (mirroring that a Python exception propagates before
  any mutation), or an `Except` value.
- Wall-clock time is `ℚ`; OS-level outcomes (launch, wait, signal
  delivery, report file content) form an explicit environment record.
-/

namespace RunPy

/-- Embeds `RowLengthDiffersException.__init__` (run.py lines 77-85):
the exception carries the expected length `len1` and the actual length
`len2`; its message interpolates both. -/
structure RowLengthDiffersException where
  len1 : Nat
  len2 : Nat
  deriving Repr, DecidableEq

/-- State of a `CSVTableGenerator` object (run.py lines 88-118) together
with the report file it owns.  `file` is the list of records currently
persisted on disk; `table` is the in-memory buffer; `rsize` caches
`len(header)`; `memory` selects buffered mode.  The cell type is a
parameter: the Python writer accepts any values and only their count
matters to the class. -/
structure CSVTable (α : Type) where
  file : List (List α)
  header : List α
  memory : Bool
  rsize : Nat
  table : List (List α)
  deriving Repr, DecidableEq

/-- Embeds `CSVTableGenerator.__init__` (run.py lines 89-98): record the
header and its length, start with an empty buffer, and truncate the file
to exactly the header record. -/
def CSVTableGenerator (header : List α) (memory : Bool) : CSVTable α :=
  { file := [header]
    header := header
    memory := memory
    rsize := header.length
    table := [] }

/-- Embeds `CSVTableGenerator.clear_table` (run.py lines 100-102): in
buffered mode drop the buffer, otherwise do nothing. -/
def clear_table (s : CSVTable α) : CSVTable α :=
  if s.memory then { s with table := [] } else s

/-- Embeds `CSVTableGenerator.add_row` (run.py lines 104-112).  A row of
the wrong arity raises before anything is mutated, hence the unchanged
state is returned with the exception; otherwise the row is appended to
the buffer (buffered mode) or to the file (direct mode). -/
def add_row (s : CSVTable α) (row : List α) : CSVTable α × Option RowLengthDiffersException :=
  if row.length ≠ s.rsize then
    (s, some ⟨s.rsize, row.length⟩)
  else if s.memory then
    ({ s with table := s.table ++ [row] }, none)
  else
    ({ s with file := s.file ++ [row] }, none)

/-- Embeds `CSVTableGenerator.commit` (run.py lines 114-118): in buffered
mode append every buffered row to the file (the buffer itself is not
touched); in direct mode do nothing. -/
def commit (s : CSVTable α) : CSVTable α :=
  if s.memory then { s with file := s.file ++ s.table } else s

/-- Runs a sequence of `add_row` calls, recording whether every single
call succeeded (returned no exception). -/
def add_rows (s : CSVTable α) (rows : List (List α)) : CSVTable α × Bool :=
  rows.foldl (fun acc row =>
    let out := add_row acc.1 row
    (out.1, acc.2 && out.2.isNone)) (s, true)

/-- Tests whether `pre` is an initial segment of `s` (the semantics of
Python `str.startswith` for plain strings). -/
def strStartsWith (s pre : String) : Bool :=
  pre.data.isPrefixOf s.data

/-- Tests whether `suf` is a final segment of `s`. -/
def strEndsWith (s suf : String) : Bool :=
  suf.data.reverse.isPrefixOf s.data.reverse

/-- Embeds Python `str.strip()`: drop whitespace from both ends. -/
def strTrim (s : String) : String :=
  String.mk (((s.data.dropWhile Char.isWhitespace).reverse.dropWhile
    Char.isWhitespace).reverse)

/-- Characters after the last slash of a character list. -/
def basenameChars : List Char → List Char
  | [] => []
  | c :: cs =>
    if cs.contains '/' then basenameChars cs
    else if c = '/' then cs
    else c :: cs

/-- Embeds `os.path.basename` for POSIX paths: everything after the last
slash. -/
def basename (p : String) : String :=
  String.mk (basenameChars p.data)

/-- Characters of a character list up to and including its last slash
(empty when there is no slash): the `head` computed by
`posixpath.dirname`. -/
def dirnameHeadChars : List Char → List Char
  | [] => []
  | c :: cs =>
    if cs.contains '/' then c :: dirnameHeadChars cs
    else if c = '/' then ['/']
    else []

/-- Embeds `os.path.dirname` for POSIX paths: everything up to the last
slash, with trailing slashes stripped unless the head consists only of
slashes. -/
def dirname (p : String) : String :=
  let head := dirnameHeadChars p.data
  if head = [] then ""
  else if head.all (fun c => c = '/') then String.mk head
  else String.mk ((head.reverse.dropWhile (fun c => c = '/')).reverse)

/-- Embeds the two-argument `os.path.join` for POSIX paths. -/
def osJoin (a b : String) : String :=
  if strStartsWith b "/" then b
  else if a = "" ∨ strEndsWith a "/" then a ++ b
  else a ++ "/" ++ b

/-- Content of `report.json` as found by `parse_report`: the file may be
missing (open fails), fail to parse as JSON, or parse to an object which
either carries all three expected fields with convertible values or does
not (`badSchema`: a required key is absent or a value fails the numeric
conversion applied in `execute`). -/
inductive ReportJson where
  | ok (specification : String) (solver_time : ℚ) (paths_explored : Int)
  | badSchema
  deriving Repr, DecidableEq

/-- The report file handed to `parse_report`. -/
inductive ReportFile where
  | missing
  | malformed
  | json (j : ReportJson)
  deriving Repr, DecidableEq

/-- Embeds `parse_report` (run.py lines 147-153): any failure to open or
JSON-parse the file is swallowed by the bare `except` and replaced by the
default object `Timeout / 0.0 / 0`; a file that parses is returned as
is (field lookup happens later, in `execute`). -/
def parse_report : ReportFile → ReportJson
  | .missing => .ok "Timeout" 0 0
  | .malformed => .ok "Timeout" 0 0
  | .json j => j

/-- Embeds the `result` dict built by `execute` (run.py lines 204-209):
answer defaults to Timeout, runtime and solver time to `0.0`, paths
explored to `0`. -/
structure ExecResult where
  runtime : ℚ
  answer : String
  solver_time : ℚ
  paths_explored : Int
  deriving Repr, DecidableEq

/-- Exceptions `execute` can let escape to its caller: `Popen` failing
to launch the child, `os.getpgid`/`os.killpg` failing on an already-dead
process group, and a key/conversion error while reading fields out of a
parsed report. -/
inductive ExecError where
  | launchFailure
  | processLookup
  | reportField
  deriving Repr, DecidableEq

/-- Outcome of `subprocess.Popen`. -/
inductive LaunchOutcome where
  | ok
  | fail
  deriving Repr, DecidableEq

/-- Outcome of `proc.communicate(timeout=900.0)`: the child finished in
time, or `TimeoutExpired` was raised. -/
inductive WaitOutcome where
  | completed
  | timedOut
  deriving Repr, DecidableEq

/-- Outcome of `os.killpg(os.getpgid(proc.pid), SIGTERM)` on the timeout
path: delivered, or the group was already gone and the lookup raised. -/
inductive KillOutcome where
  | ok
  | noSuchProcessGroup
  deriving Repr, DecidableEq

/-- OS environment one call of `execute` runs against: how the launch,
the bounded wait, and the group signal turn out, what
`<output_dir>/report.json` holds afterwards, and the elapsed wall-clock
time `time.time() - start` observed at the end of the call. -/
structure ExecEnv where
  launch : LaunchOutcome
  wait : WaitOutcome
  kill : KillOutcome
  report : ReportFile
  elapsed : ℚ
  deriving Repr, DecidableEq

/-- The fixed 900-second wall-clock timeout passed to `communicate`. -/
def timeoutLimit : ℚ := 900

/-- Command line `execute` builds (run.py lines 211-217).  The third
parameter of `execute` is bound to `_` in the source; it is received but
never used, so no element of the command mentions it. -/
def execute_cmd (benchmark output_dir _backend prop : String) : List String :=
  ["owic", benchmark,
   "--output", output_dir,
   "--test-comp",
   "--property", prop,
   "--arch", "32"]

/-- Embeds `execute` (run.py lines 203-234).  Only
`subprocess.TimeoutExpired` is caught: a launch failure escapes (the
`Popen` call sits outside the `try`), and on the timeout path a failure
of `os.getpgid`/`os.killpg` escapes (it is raised inside the `except`
handler).  After a completed wait the parsed report fields are read;
a parsed object missing a field raises `KeyError`/`ValueError`.  All
surviving paths record the elapsed wall time and return the result. -/
def execute (benchmark output_dir _backend prop : String) (env : ExecEnv) :
    Except ExecError ExecResult :=
  match env.launch with
  | .fail => .error .launchFailure
  | .ok =>
    match env.wait with
    | .completed =>
      match parse_report env.report with
      | .badSchema => .error .reportField
      | .ok spec solver paths =>
        .ok { runtime := env.elapsed
              answer := spec
              solver_time := solver
              paths_explored := paths }
    | .timedOut =>
      match env.kill with
      | .noSuchProcessGroup => .error .processLookup
      | .ok =>
        .ok { runtime := env.elapsed
              answer := "Timeout"
              solver_time := 0
              paths_explored := 0 }

/-- A cell of a report row as passed to `csv.writerow` by
`run_benchmark`: the Python row mixes a path string, the answer string,
two floats and an integer. -/
inductive Cell where
  | str (s : String)
  | num (q : ℚ)
  | int (n : Int)
  deriving Repr, DecidableEq

/-- One entry of a benchmark descriptor `properties` list: a property
file path and an expected verdict. -/
structure PropertyEntry where
  property_file : String
  expected_verdict : Bool
  deriving Repr, DecidableEq

/-- The fields of a benchmark descriptor document read by
`run_benchmark`: the input file (relative to the descriptor
directory) and the property associations. -/
structure BenchmarkConf where
  input_files : String
  properties : List PropertyEntry
  deriving Repr, DecidableEq

/-- The `conf` dict `run_tasks` hands to every `run_benchmark` call
(run.py lines 300-305), minus the shared table, which lives in
`RunState`. -/
structure RunConf where
  size : Nat
  prop : String
  backend : String
  deriving Repr, DecidableEq

/-- The shared mutable state one worker sees: the progress counter
`curr` and the shared result table. -/
structure RunState where
  curr : Nat
  table : CSVTable Cell
  deriving Repr, DecidableEq

/-- Exceptions that can escape `run_benchmark`: one let through from
`execute`, or a row-arity rejection from `add_row`. -/
inductive RunError where
  | exec (e : ExecError)
  | row (e : RowLengthDiffersException)
  deriving Repr, DecidableEq

/-- Embeds `run_benchmark` (run.py lines 237-277).  Under the lock the
progress counter is advanced (and the progress line rendered) before
anything else; then the descriptor is scanned for a property whose file
basename equals the selected property basename; without a match the
function returns with no further effect (the row is never written).
Otherwise the input file and output directory are derived and `execute`
runs, after which the row is appended under the lock. -/
def run_benchmark (conf : RunConf) (benchmark : String)
    (benchmark_conf : BenchmarkConf) (env : ExecEnv) (st : RunState) :
    Except RunError RunState :=
  let st1 : RunState := { st with curr := st.curr + 1 }
  if benchmark_conf.properties.any
      (fun prp => basename conf.prop == basename prp.property_file) then
    let benchmark_file := osJoin (dirname benchmark) benchmark_conf.input_files
    let output_dir :=
      osJoin (osJoin "wasp-out" (basename (dirname benchmark_file)))
        (basename benchmark_file)
    match execute benchmark_file output_dir conf.backend conf.prop env with
    | .error e => .error (.exec e)
    | .ok result =>
      let out := add_row st1.table
        [Cell.str benchmark_file, Cell.str result.answer,
         Cell.num result.runtime, Cell.num result.solver_time,
         Cell.int result.paths_explored]
      match out.2 with
      | some e => .error (.row e)
      | none => .ok { st1 with table := out.1 }
  else
    .ok st1

/-- An `includesfile`/`excludesfile` element together with the content
of the newline-delimited list file its text points to: `path` is the
element text (the list file path), `lines` are the raw lines
`readlines` returns for it. -/
structure ListFile where
  path : String
  lines : List String
  deriving Repr, DecidableEq

/-- A child element of a `tasks` element, in document order. -/
inductive TaskChild where
  | includesfile (lf : ListFile)
  | excludesfile (lf : ListFile)
  deriving Repr, DecidableEq

/-- One `tasks` element of the suite definition: its `name` attribute
and its child elements in document order. -/
structure TaskElem where
  name : String
  children : List TaskChild
  deriving Repr, DecidableEq

/-- Embeds `parse_list` (run.py lines 161-165): drop every raw line that
starts with the comment marker, then strip surrounding whitespace from
the survivors.  Note the order: the comment test runs on the raw line,
the strip comes after. -/
def parse_list (lf : ListFile) : List String :=
  (lf.lines.filter (fun line => !(strStartsWith line "#"))).map (fun line => strTrim line)

/-- The `includesfile` children of a task, in document order, as
`findall` returns them. -/
def includesfiles (t : TaskElem) : List ListFile :=
  t.children.filterMap (fun c =>
    match c with
    | .includesfile lf => some lf
    | .excludesfile _ => none)

/-- The `excludesfile` children of a task, in document order, as
`findall` returns them. -/
def excludesfiles (t : TaskElem) : List ListFile :=
  t.children.filterMap (fun c =>
    match c with
    | .includesfile _ => none
    | .excludesfile lf => some lf)

/-- Embeds the inner loop of `parse_tasks` over one includes file
(run.py lines 174-182): for each non-empty pattern, union in the glob
matches of the pattern joined to the directory of the declaring list
file.  `g` is the glob oracle (pattern string, as given to `glob.glob`,
to its set of matches). -/
def includeStep (g : String → Finset String) (lf : ListFile)
    (acc : Finset String) : Finset String :=
  (parse_list lf).foldl
    (fun acc pat =>
      if pat = "" then acc
      else acc ∪ g (osJoin (dirname lf.path) pat)) acc

/-- Embeds the inner loop of `parse_tasks` over one excludes file
(run.py lines 183-194): for each non-empty pattern, remove the glob
matches — of the bare pattern when it is rooted at `sv-benchmarks`
(resolved from the current working directory), otherwise of the pattern
joined to the directory of the declaring list file. -/
def excludeStep (g : String → Finset String) (lf : ListFile)
    (acc : Finset String) : Finset String :=
  (parse_list lf).foldl
    (fun acc pat =>
      if pat = "" then acc
      else acc \ g (if strStartsWith pat "sv-benchmarks" then pat
                    else osJoin (dirname lf.path) pat)) acc

/-- Embeds the body of the per-task loop of `parse_tasks` (run.py lines
171-194): starting from the empty set, fold all `includesfile` children
(in document order), then all `excludesfile` children (in document
order). -/
def parse_tasks_resolve (g : String → Finset String) (t : TaskElem) : Finset String :=
  (excludesfiles t).foldl (fun acc lf => excludeStep g lf acc)
    ((includesfiles t).foldl (fun acc lf => includeStep g lf acc) ∅)

/-- Union of `f` over a pattern list. -/
def globUnion (f : String → Finset String) (pats : List String) : Finset String :=
  pats.foldr (fun p s => f p ∪ s) ∅

/-- The patterns of a list file that actually reach `glob.glob`: the
stripped non-comment lines minus the empty ones. -/
def patterns (lf : ListFile) : List String :=
  (parse_list lf).filter (fun p => p != "")

/-- Modelled from the spec, for comparison with `parse_tasks_resolve`:
the union of all includes-file glob matches of a task. -/
def includesUnion (g : String → Finset String) (t : TaskElem) : Finset String :=
  (includesfiles t).foldr
    (fun lf s =>
      globUnion (fun pat => g (osJoin (dirname lf.path) pat)) (patterns lf) ∪ s) ∅

/-- Modelled from the spec, for comparison with `parse_tasks_resolve`:
the union of all excludes-file glob matches of a task (each pattern
resolved by the same rule the code applies). -/
def excludesUnion (g : String → Finset String) (t : TaskElem) : Finset String :=
  (excludesfiles t).foldr
    (fun lf s =>
      globUnion
        (fun pat => g (if strStartsWith pat "sv-benchmarks" then pat
          else osJoin (dirname lf.path) pat)) (patterns lf) ∪ s) ∅

/-- A list file with its blank (whitespace-only) and comment-prefixed
lines removed. -/
def cleanListFile (lf : ListFile) : ListFile :=
  { lf with
    lines := lf.lines.filter
      (fun line => !(strStartsWith line "#") && !(strTrim line == "")) }

/-- A task with every referenced list file cleaned of blank and
comment-prefixed lines. -/
def cleanTask (t : TaskElem) : TaskElem :=
  { t with
    children := t.children.map (fun c =>
      match c with
      | .includesfile lf => .includesfile (cleanListFile lf)
      | .excludesfile lf => .excludesfile (cleanListFile lf)) }

theorem sdiff_sdiff_union (a b c : Finset String) : (a \ b) \ c = a \ (b ∪ c) := by
  ext x
  simp only [Finset.mem_sdiff, Finset.mem_union]
  tauto

theorem foldl_union_glob (f : String → Finset String) (l : List String)
    (acc : Finset String) :
    l.foldl (fun a p => if p = "" then a else a ∪ f p) acc
      = acc ∪ globUnion f (l.filter (fun p => p != "")) := by
  induction l generalizing acc with
  | nil => simp [globUnion]
  | cons p ps ih =>
    by_cases hp : p = ""
    · subst hp
      simp [ih]
    · have hb : (p != "") = true := by simpa using hp
      simp only [List.foldl_cons, if_neg hp, List.filter_cons, hb, if_true]
      rw [ih]
      simp [globUnion, Finset.union_assoc]

theorem foldl_sdiff_glob (f : String → Finset String) (l : List String)
    (acc : Finset String) :
    l.foldl (fun a p => if p = "" then a else a \ f p) acc
      = acc \ globUnion f (l.filter (fun p => p != "")) := by
  induction l generalizing acc with
  | nil => simp [globUnion]
  | cons p ps ih =>
    by_cases hp : p = ""
    · subst hp
      simp [ih]
    · have hb : (p != "") = true := by simpa using hp
      simp only [List.foldl_cons, if_neg hp, List.filter_cons, hb, if_true]
      rw [ih]
      simp only [globUnion, List.foldr_cons]
      exact sdiff_sdiff_union acc (f p) _

theorem includeStep_eq (g : String → Finset String) (lf : ListFile)
    (acc : Finset String) :
    includeStep g lf acc
      = acc ∪ globUnion (fun pat => g (osJoin (dirname lf.path) pat)) (patterns lf) :=
  foldl_union_glob _ _ _

theorem excludeStep_eq (g : String → Finset String) (lf : ListFile)
    (acc : Finset String) :
    excludeStep g lf acc
      = acc \ globUnion
          (fun pat => g (if strStartsWith pat "sv-benchmarks" then pat
            else osJoin (dirname lf.path) pat)) (patterns lf) :=
  foldl_sdiff_glob _ _ _

theorem foldl_includeStep (g : String → Finset String) (lfs : List ListFile)
    (acc : Finset String) :
    lfs.foldl (fun a lf => includeStep g lf a) acc
      = acc ∪ lfs.foldr
          (fun lf s =>
            globUnion (fun pat => g (osJoin (dirname lf.path) pat)) (patterns lf) ∪ s)
          ∅ := by
  induction lfs generalizing acc with
  | nil => simp
  | cons lf lfs ih =>
    simp only [List.foldl_cons, List.foldr_cons]
    rw [ih, includeStep_eq, Finset.union_assoc]

theorem foldl_excludeStep (g : String → Finset String) (lfs : List ListFile)
    (acc : Finset String) :
    lfs.foldl (fun a lf => excludeStep g lf a) acc
      = acc \ lfs.foldr
          (fun lf s =>
            globUnion
              (fun pat => g (if strStartsWith pat "sv-benchmarks" then pat
                else osJoin (dirname lf.path) pat)) (patterns lf) ∪ s)
          ∅ := by
  induction lfs generalizing acc with
  | nil => simp
  | cons lf lfs ih =>
    simp only [List.foldl_cons, List.foldr_cons]
    rw [ih, excludeStep_eq, sdiff_sdiff_union]

theorem patterns_cleanListFile (lf : ListFile) :
    patterns (cleanListFile lf) = patterns lf := by
  show (((lf.lines.filter _).filter _).map _).filter _
    = ((lf.lines.filter _).map _).filter _
  induction lf.lines with
  | nil => rfl
  | cons l ls ih =>
    cases hsw : strStartsWith l "#" with
    | true => simpa [List.filter_cons, hsw] using ih
    | false =>
      cases htr : (strTrim l == "") with
      | true => simpa [List.filter_cons, hsw, htr, bne] using ih
      | false => simpa [List.filter_cons, hsw, htr, bne] using ih

theorem cleanListFile_path (lf : ListFile) : (cleanListFile lf).path = lf.path := rfl

theorem includeStep_cleanListFile (g : String → Finset String) (lf : ListFile)
    (acc : Finset String) :
    includeStep g (cleanListFile lf) acc = includeStep g lf acc := by
  rw [includeStep_eq, includeStep_eq, patterns_cleanListFile, cleanListFile_path]

theorem excludeStep_cleanListFile (g : String → Finset String) (lf : ListFile)
    (acc : Finset String) :
    excludeStep g (cleanListFile lf) acc = excludeStep g lf acc := by
  rw [excludeStep_eq, excludeStep_eq, patterns_cleanListFile, cleanListFile_path]

theorem includesfiles_cleanTask (t : TaskElem) :
    includesfiles (cleanTask t) = (includesfiles t).map cleanListFile := by
  show List.filterMap _ (t.children.map _) = (List.filterMap _ t.children).map _
  induction t.children with
  | nil => rfl
  | cons c cs ih =>
    cases c with
    | includesfile lf => simpa [List.filterMap_cons] using ih
    | excludesfile lf => simpa [List.filterMap_cons] using ih

theorem excludesfiles_cleanTask (t : TaskElem) :
    excludesfiles (cleanTask t) = (excludesfiles t).map cleanListFile := by
  show List.filterMap _ (t.children.map _) = (List.filterMap _ t.children).map _
  induction t.children with
  | nil => rfl
  | cons c cs ih =>
    cases c with
    | includesfile lf => simpa [List.filterMap_cons] using ih
    | excludesfile lf => simpa [List.filterMap_cons] using ih

theorem foldl_includeStep_map_clean (g : String → Finset String)
    (lfs : List ListFile) (acc : Finset String) :
    (lfs.map cleanListFile).foldl (fun a lf => includeStep g lf a) acc
      = lfs.foldl (fun a lf => includeStep g lf a) acc := by
  induction lfs generalizing acc with
  | nil => rfl
  | cons lf lfs ih =>
    simp only [List.map_cons, List.foldl_cons, includeStep_cleanListFile]
    exact ih _

theorem foldl_excludeStep_map_clean (g : String → Finset String)
    (lfs : List ListFile) (acc : Finset String) :
    (lfs.map cleanListFile).foldl (fun a lf => excludeStep g lf a) acc
      = lfs.foldl (fun a lf => excludeStep g lf a) acc := by
  induction lfs generalizing acc with
  | nil => rfl
  | cons lf lfs ih =>
    simp only [List.map_cons, List.foldl_cons, excludeStep_cleanListFile]
    exact ih _

theorem add_row_ok_direct (s : CSVTable α) (row : List α)
    (hm : s.memory = false) (hl : row.length = s.rsize) :
    add_row s row = ({ s with file := s.file ++ [row] }, none) := by
  simp [add_row, hl, hm]

theorem add_rows_direct (s : CSVTable α) (rows : List (List α))
    (hm : s.memory = false) (hl : ∀ r ∈ rows, r.length = s.rsize) :
    add_rows s rows = ({ s with file := s.file ++ rows }, true) := by
  induction rows generalizing s with
  | nil => simp [add_rows]
  | cons r rs ih =>
    have hr : r.length = s.rsize := hl r (List.mem_cons_self r rs)
    have hstep : add_row s r = ({ s with file := s.file ++ [r] }, none) :=
      add_row_ok_direct s r hm hr
    have hrest := ih { s with file := s.file ++ [r] } hm
      (fun x hx => hl x (List.mem_cons_of_mem r hx))
    simp only [add_rows, List.foldl_cons, hstep] at *
    simpa [add_rows, List.append_assoc] using hrest

/-- C4 counterexample: a buffered (`memory = true`) table after one
successful `add_row` still has only the header record persisted — the
file does not contain `1 + N` lines as the claim demands for every
`ResultTable`. -/
theorem c4_buffered_counterexample :
    (add_row (CSVTableGenerator ([0] : List Nat) true) [1]).2 = none ∧
    ¬ (add_row (CSVTableGenerator ([0] : List Nat) true) [1]).1.file.length = 1 + 1 := by
  constructor
  · rfl
  · decide

/-- C4 (amended to direct-append mode): a direct-mode (`memory = false`)
table, after construction (which persists the header) followed by `N`
successful `add_row` calls with correctly sized rows, has exactly
`1 + N` persisted records, and every persisted record has exactly the
header field count. -/
theorem c4_direct_mode_file_shape (header : List α) (rows : List (List α))
    (hl : ∀ r ∈ rows, r.length = header.length) :
    (add_rows (CSVTableGenerator header false) rows).2 = true ∧
    (add_rows (CSVTableGenerator header false) rows).1.file.length = 1 + rows.length ∧
    ∀ r ∈ (add_rows (CSVTableGenerator header false) rows).1.file,
      r.length = header.length := by
  have h := add_rows_direct (CSVTableGenerator header false) rows rfl
    (fun r hr => hl r hr)
  rw [h]
  refine ⟨rfl, by simp [CSVTableGenerator, Nat.add_comm], ?_⟩
  intro r hr
  simp only [CSVTableGenerator, List.cons_append, List.nil_append, List.mem_cons] at hr
  rcases hr with h1 | h2
  · rw [h1]
  · exact hl r h2

/-- Witness for `c4_direct_mode_file_shape` at a concrete table. -/
theorem c4_direct_mode_file_shape_witness :
    (add_rows (CSVTableGenerator ([0] : List Nat) false) [[1], [2]]).2 = true ∧
    (add_rows (CSVTableGenerator ([0] : List Nat) false) [[1], [2]]).1.file.length = 1 + 2 ∧
    ∀ r ∈ (add_rows (CSVTableGenerator ([0] : List Nat) false) [[1], [2]]).1.file,
      r.length = ([0] : List Nat).length :=
  c4_direct_mode_file_shape [0] [[1], [2]] (by decide)

/-- C5: `add_row` with a row whose length differs from the header
raises `RowLengthDiffersException` carrying both the expected length
(`rsize`, the header length) and the actual length, and returns the
table state unchanged — neither the persisted file nor the in-memory
buffer is mutated. -/
theorem c5_add_row_mismatch (s : CSVTable α) (row : List α)
    (h : row.length ≠ s.rsize) :
    add_row s row = (s, some ⟨s.rsize, row.length⟩) := by
  simp [add_row, h]

/-- Witness for `c5_add_row_mismatch` at a concrete table and row. -/
theorem c5_add_row_mismatch_witness :
    add_row (CSVTableGenerator ([0] : List Nat) false) [1, 2] =
      (CSVTableGenerator ([0] : List Nat) false, some ⟨1, 2⟩) :=
  c5_add_row_mismatch (CSVTableGenerator ([0] : List Nat) false) [1, 2] (by decide)

/-- C10: in buffered mode `commit` does not empty the in-memory buffer,
so each `commit` appends the whole buffer to the file again: after two
consecutive commits with no intervening `clear_table`, the file holds
the original records followed by two copies of the buffer — with the
header-only file produced at construction, `1 + 2 * N` records. -/
theorem c10_commit_duplicates (s : CSVTable α) (h : s.memory = true) :
    (commit s).table = s.table ∧
    commit (commit s) = { s with file := s.file ++ s.table ++ s.table } ∧
    (commit (commit s)).file.length = s.file.length + 2 * s.table.length := by
  refine ⟨by simp [commit, h], by simp [commit, h], ?_⟩
  simp [commit, h]
  ring

/-- Witness for `c10_commit_duplicates` at a concrete buffered table. -/
theorem c10_commit_duplicates_witness :
    (commit (add_row (CSVTableGenerator ([0] : List Nat) true) [1]).1).table =
      (add_row (CSVTableGenerator ([0] : List Nat) true) [1]).1.table ∧
    commit (commit (add_row (CSVTableGenerator ([0] : List Nat) true) [1]).1) =
      { (add_row (CSVTableGenerator ([0] : List Nat) true) [1]).1 with
          file := (add_row (CSVTableGenerator ([0] : List Nat) true) [1]).1.file ++
            (add_row (CSVTableGenerator ([0] : List Nat) true) [1]).1.table ++
            (add_row (CSVTableGenerator ([0] : List Nat) true) [1]).1.table } ∧
    (commit (commit (add_row (CSVTableGenerator ([0] : List Nat) true) [1]).1)).file.length =
      (add_row (CSVTableGenerator ([0] : List Nat) true) [1]).1.file.length +
        2 * (add_row (CSVTableGenerator ([0] : List Nat) true) [1]).1.table.length :=
  c10_commit_duplicates (add_row (CSVTableGenerator ([0] : List Nat) true) [1]).1 rfl

/-- C1: for every glob oracle and every task element, the resolved
instance set equals the union of all includes-file glob matches minus
the union of all excludes-file glob matches: the implementation settles
every include (in document order, by repeated union) before any exclude
is applied (in document order, by repeated set difference), whatever the
interleaving of `includesfile`/`excludesfile` elements in the
document. -/
theorem c1_resolved_set_eq_union_minus_excludes (g : String → Finset String)
    (t : TaskElem) :
    parse_tasks_resolve g t = includesUnion g t \ excludesUnion g t := by
  unfold parse_tasks_resolve includesUnion excludesUnion
  rw [foldl_includeStep, foldl_excludeStep, Finset.empty_union]

/-- C6: blank (whitespace-only) lines and comment-prefixed lines of the
referenced pattern-list files never contribute a path to a task
resolved set: removing every such line from every list file leaves the
resolved set unchanged, whatever those lines would glob-match. -/
theorem c6_blank_comment_lines_never_contribute (g : String → Finset String)
    (t : TaskElem) :
    parse_tasks_resolve g (cleanTask t) = parse_tasks_resolve g t := by
  unfold parse_tasks_resolve
  rw [includesfiles_cleanTask, excludesfiles_cleanTask,
    foldl_includeStep_map_clean, foldl_excludeStep_map_clean]

/-- C8: applying one excludes file removes, for each of its (stripped,
non-empty, non-comment) patterns, the glob matches of the bare pattern
when it is rooted at the benchmark-corpus root `sv-benchmarks` (so the
glob resolves from the current working directory), and otherwise the
glob matches of the pattern joined to the directory of the declaring
list file. -/
theorem c8_exclude_pattern_resolution (g : String → Finset String)
    (lf : ListFile) (acc : Finset String) :
    excludeStep g lf acc
      = acc \ globUnion
          (fun pat => if strStartsWith pat "sv-benchmarks" then g pat
            else g (osJoin (dirname lf.path) pat)) (patterns lf) := by
  rw [excludeStep_eq]
  have hfun : (fun pat => g (if strStartsWith pat "sv-benchmarks" then pat
      else osJoin (dirname lf.path) pat))
      = (fun pat => if strStartsWith pat "sv-benchmarks" then g pat
        else g (osJoin (dirname lf.path) pat)) := by
    funext pat
    exact apply_ite g _ _ _
  rw [hfun]

/-- C2 counterexample: when `Popen` fails to launch the child, `execute`
raises to its caller instead of returning a result record — the `Popen`
call sits outside the `try` block. -/
theorem c2_counterexample_launch_failure_raises :
    execute "f.c" "wasp-out/d/f.c" "share/backend/wasp-ce.json" "cov.prp"
      { launch := .fail, wait := .completed, kill := .ok,
        report := .missing, elapsed := 0 }
      = .error .launchFailure := rfl

/-- C2 (amended): `execute` absorbs a timeout (when the group signal is
delivered) and a missing or JSON-unparseable report into a result record
with answer Timeout and the zero/default numeric fields (only the wall
runtime filled in), and returns a result exactly when the launch
succeeds and the run neither hits a timeout with an already-dead process
group nor yields a parsed report lacking the expected fields; in those
residual cases the exception propagates to the caller. -/
theorem c2_execute_failure_semantics (benchmark output_dir backend prop : String)
    (env : ExecEnv) :
    ((∃ r, execute benchmark output_dir backend prop env = .ok r) ↔
      env.launch = .ok ∧
        ((env.wait = .completed ∧ parse_report env.report ≠ .badSchema) ∨
          (env.wait = .timedOut ∧ env.kill = .ok))) ∧
    ((env.report = .missing ∨ env.report = .malformed) →
      env.launch = .ok → env.wait = .completed →
      execute benchmark output_dir backend prop env =
        .ok { runtime := env.elapsed, answer := "Timeout",
              solver_time := 0, paths_explored := 0 }) ∧
    (env.launch = .ok → env.wait = .timedOut → env.kill = .ok →
      execute benchmark output_dir backend prop env =
        .ok { runtime := env.elapsed, answer := "Timeout",
              solver_time := 0, paths_explored := 0 }) := by
  obtain ⟨launch, wait, kill, report, elapsed⟩ := env
  refine ⟨?_, ?_, ?_⟩
  · cases launch <;> cases wait <;> cases kill <;>
      rcases hr : parse_report report with _ | _ <;>
      simp [execute, hr]
  · rintro (h | h) hl hw <;> subst h <;> subst hl <;> subst hw <;> rfl
  · intro hl hw hk
    subst hl
    subst hw
    subst hk
    rfl

/-- Witness for `c2_execute_failure_semantics` at two concrete
environments: an absorbed timeout with the group signal delivered, and
an absorbed malformed report after a completed wait — both yield the
Timeout record with default numeric fields and the elapsed runtime. -/
theorem c2_execute_failure_semantics_witness :
    execute "f.c" "o" "k" "p"
        { launch := .ok, wait := .timedOut, kill := .ok,
          report := .missing, elapsed := 901 } =
      .ok { runtime := 901, answer := "Timeout",
            solver_time := 0, paths_explored := 0 } ∧
    execute "f.c" "o" "k" "p"
        { launch := .ok, wait := .completed, kill := .ok,
          report := .malformed, elapsed := 5 } =
      .ok { runtime := 5, answer := "Timeout",
            solver_time := 0, paths_explored := 0 } :=
  ⟨(c2_execute_failure_semantics "f.c" "o" "k" "p"
      { launch := .ok, wait := .timedOut, kill := .ok,
        report := .missing, elapsed := 901 }).2.2 rfl rfl rfl,
   (c2_execute_failure_semantics "f.c" "o" "k" "p"
      { launch := .ok, wait := .completed, kill := .ok,
        report := .malformed, elapsed := 5 }).2.1 (Or.inr rfl) rfl rfl⟩

/-- C3: when the child is launched, the wait raises `TimeoutExpired`
(which, by the wall-clock semantics of `communicate(timeout=900.0)`,
implies the elapsed wall time recorded afterwards is at least the
900-second threshold) and the group signal is delivered, `execute`
returns a record with answer Timeout, solver time `0.0`, paths explored
`0`, and wall runtime at least the timeout threshold. -/
theorem c3_timeout_result (benchmark output_dir backend prop : String)
    (env : ExecEnv) (hlaunch : env.launch = .ok)
    (hwait : env.wait = .timedOut) (hkill : env.kill = .ok)
    (helapsed : timeoutLimit ≤ env.elapsed) :
    ∃ r, execute benchmark output_dir backend prop env = .ok r ∧
      r.answer = "Timeout" ∧ r.solver_time = 0 ∧ r.paths_explored = 0 ∧
      timeoutLimit ≤ r.runtime := by
  refine ⟨ExecResult.mk env.elapsed "Timeout" 0 0, ?_, rfl, rfl, rfl, helapsed⟩
  unfold execute
  rw [hlaunch, hwait, hkill]

/-- Witness for `c3_timeout_result` at a concrete environment whose
elapsed wall time is exactly the threshold. -/
theorem c3_timeout_result_witness :
    ∃ r, execute "f.c" "o" "k" "p"
        { launch := .ok, wait := .timedOut, kill := .ok,
          report := .missing, elapsed := 900 } = .ok r ∧
      r.answer = "Timeout" ∧ r.solver_time = 0 ∧ r.paths_explored = 0 ∧
      timeoutLimit ≤ r.runtime :=
  c3_timeout_result "f.c" "o" "k" "p"
    { launch := .ok, wait := .timedOut, kill := .ok,
      report := .missing, elapsed := 900 }
    rfl rfl rfl (le_refl 900)

/-- C9 counterexample: two distinct backend identifiers produce the very
same child-process command line — the command line does not depend on
the backend argument (bound to `_` in the source and never used). -/
theorem c9_counterexample_backend_unused :
    execute_cmd "f.c" "out" "share/backend/wasp-ce.json" "cov.prp" =
      execute_cmd "f.c" "out" "share/backend/other.json" "cov.prp" ∧
    "share/backend/wasp-ce.json" ≠ "share/backend/other.json" := by
  exact ⟨rfl, by decide⟩

/-- C9 (amended): the backend identifier handed to `execute` is accepted
but ignored: neither the child-process command line nor any part of the
execution result depends on it. -/
theorem c9_backend_ignored (benchmark output_dir b1 b2 prop : String)
    (env : ExecEnv) :
    execute_cmd benchmark output_dir b1 prop
        = execute_cmd benchmark output_dir b2 prop ∧
    execute benchmark output_dir b1 prop env
        = execute benchmark output_dir b2 prop env :=
  ⟨rfl, rfl⟩

/-- C7: a benchmark whose descriptor declares no property whose file
basename equals the selected property basename is silently skipped:
`run_benchmark` advances the shared progress counter and returns without
touching the result table (and without raising). -/
theorem c7_skip_still_counts (conf : RunConf) (benchmark : String)
    (benchmark_conf : BenchmarkConf) (env : ExecEnv) (st : RunState)
    (h : ∀ prp ∈ benchmark_conf.properties,
      basename prp.property_file ≠ basename conf.prop) :
    run_benchmark conf benchmark benchmark_conf env st =
      .ok { curr := st.curr + 1, table := st.table } := by
  have hc : benchmark_conf.properties.any
      (fun prp => basename conf.prop == basename prp.property_file) = false := by
    rw [List.any_eq_false]
    intro prp hprp
    simp only [beq_iff_eq]
    exact fun he => h prp hprp he.symm
  simp [run_benchmark, hc]

/-- Witness for `c7_skip_still_counts`: a descriptor declaring only a
termination property while the run selects the coverage property. -/
theorem c7_skip_still_counts_witness :
    run_benchmark
      { size := 1, prop := "sv-benchmarks/c/properties/coverage-error-call.prp",
        backend := "share/backend/wasp-ce.json" }
      "sv-benchmarks/c/dir/bench.yml"
      { input_files := "bench.c",
        properties := [{ property_file := "../properties/termination.prp",
                         expected_verdict := true }] }
      { launch := .ok, wait := .completed, kill := .ok,
        report := .missing, elapsed := 1 }
      { curr := 0,
        table := CSVTableGenerator
          [Cell.str "test", Cell.str "answer", Cell.str "t_backend",
           Cell.str "t_solver", Cell.str "paths"] false } =
      .ok { curr := 0 + 1,
            table := CSVTableGenerator
              [Cell.str "test", Cell.str "answer", Cell.str "t_backend",
               Cell.str "t_solver", Cell.str "paths"] false } :=
  c7_skip_still_counts _ _ _ _ _ (by decide)

end RunPy
